import Mathlib

/-!
Shallow embedding of `src/parser/fritzing.py` (the Fritzing schematic
format parser of `schematic-file-converter`).

Modelling conventions:
* XML documents (`xml.etree.ElementTree`) are modelled by the inductive
  `XmlElem`; `element.get` reads an attribute, `findPath` / `findall`
  walk a `'a/b'`-style path exactly as `ElementTree.find` / `findall` do.
* Python floats are modelled by exact rationals: the parser only ever
  rounds them to integers, and every value appearing in the claims is
  small enough for IEEE doubles to be exact.
* A Python exception (`ValueError` from `float`/`int`, `AttributeError`
  from `None.text` / `None.get`, unpacking errors) is modelled by
  `Option`: `none` means the call raises and the whole parse aborts.
* Python dictionaries are modelled by insertion-ordered association
  lists (`dictFind?` / `dictSet`); `python2` semantics are used
  throughout (`/` on ints is floor division, `round` rounds halves away
  from zero).
* String manipulation is carried out on `List Char` so that every
  definition evaluates by kernel reduction.
* External collaborators are parameters: the filesystem (`os.path.exists`
  plus `ElementTree(file=...)`) is an `FS`; `library.fritzing.lookup_part`
  is an abstract `lookup : String → String → Option String` (`none`
  models a falsy return).
-/

/-- An XML element: tag, attributes, children (in document order), text. -/
inductive XmlElem : Type where
  | mk : String → List (String × String) → List XmlElem → Option String → XmlElem

def XmlElem.tag : XmlElem → String
  | .mk t _ _ _ => t

def XmlElem.attrs : XmlElem → List (String × String)
  | .mk _ a _ _ => a

def XmlElem.children : XmlElem → List XmlElem
  | .mk _ _ c _ => c

def XmlElem.text : XmlElem → Option String
  | .mk _ _ _ tx => tx

/-- `element.get(name)`: the attribute value, or `None` when absent. -/
def XmlElem.get (e : XmlElem) (name : String) : Option String :=
  (e.attrs.find? (fun p => p.1 = name)).map (·.2)

/-- All children whose tag matches. -/
def XmlElem.childrenTagged (e : XmlElem) (t : String) : List XmlElem :=
  e.children.filter (fun c => c.tag = t)

/-- `element.findall('a/b')`: all descendants matching the path, in document order. -/
def XmlElem.findall (e : XmlElem) (path : List String) : List XmlElem :=
  match path with
  | [] => [e]
  | t :: rest => (e.childrenTagged t).flatMap (fun c => c.findall rest)

/-- `element.find('a/b')`: the first descendant matching the path, or `None`. -/
def XmlElem.findPath (e : XmlElem) (path : List String) : Option XmlElem :=
  (e.findall path).head?

mutual

/-- `element.iter()`: the element followed by all its descendants, preorder. -/
def XmlElem.iter : XmlElem → List XmlElem
  | .mk t a cs tx => .mk t a cs tx :: iterChildren cs

def iterChildren : List XmlElem → List XmlElem
  | [] => []
  | c :: cs => c.iter ++ iterChildren cs

end

/-! ### Character-list string utilities (kernel-reducible) -/

/-- Split on a separator character, keeping empty tokens —
the semantics of Python's `str.split(sep)` with an explicit separator. -/
def splitOnCh (sep : Char) : List Char → List (List Char)
  | [] => [[]]
  | c :: cs =>
    match splitOnCh sep cs with
    | [] => [[]]
    | t :: ts => if c = sep then [] :: t :: ts else (c :: t) :: ts

/-- The whitespace characters recognised by Python's `str.split()`. -/
def isWsCh (c : Char) : Bool :=
  (c = ' ') || (c = '\t') || (c = '\n') || (c = '\r')

/-- Split on a character predicate, keeping empty tokens. -/
def splitOnP (p : Char → Bool) : List Char → List (List Char)
  | [] => [[]]
  | c :: cs =>
    match splitOnP p cs with
    | [] => [[]]
    | t :: ts => if p c then [] :: t :: ts else (c :: t) :: ts

/-- Python's argument-less `str.split()`: split on whitespace runs and
drop empty tokens. -/
def pySplitWs (l : List Char) : List (List Char) :=
  (splitOnP isWsCh l).filter (fun t => ¬ t.isEmpty)

/-- Decimal digit test via code points (`'0'..'9'`). -/
def isDigitCh (c : Char) : Bool :=
  (48 ≤ c.toNat) && (c.toNat ≤ 57)

/-- The numeric value of a (possibly empty) list of decimal digits. -/
def digitsVal (l : List Char) : ℕ :=
  l.foldl (fun a c => 10 * a + (c.toNat - 48)) 0

/-- The part of a string after the last occurrence of a character
(the whole string when the character does not occur):
`s.rsplit(ch, -1)[-1]`. -/
def afterLastCh (ch : Char) (l : List Char) : List Char :=
  match splitOnCh ch l with
  | [] => l
  | t :: ts => ts.getLastD t

/-- `element.tag.rsplit('}', -1)[-1]`: the tag without its namespace part. -/
def localName (s : String) : String :=
  ⟨afterLastCh '}' s.data⟩

/-! ### Python numeric builtins -/

/-- `float(s)` for the decimal numerals the parser meets: optional sign,
digits, optional single decimal point (exponents, `inf`, `nan` and
surrounding whitespace are not used by any Fritzing attribute relevant
here).  `none` models a `ValueError`.  The value `±(i + f / 10^k)` is
built with `mkRat` so that the kernel can evaluate it. -/
def pyFloat (s : String) : Option ℚ :=
  let (neg, body) : Bool × List Char :=
    match s.data with
    | '-' :: r => (true, r)
    | '+' :: r => (false, r)
    | r => (false, r)
  match splitOnCh '.' body with
  | [ipart] =>
      if ipart ≠ [] ∧ ipart.all isDigitCh then
        some (mkRat (if neg then -(digitsVal ipart : ℤ) else (digitsVal ipart : ℤ)) 1)
      else none
  | [ipart, fpart] =>
      if (ipart ≠ [] ∨ fpart ≠ []) ∧ ipart.all isDigitCh ∧ fpart.all isDigitCh then
        let num : ℤ := digitsVal ipart * 10 ^ fpart.length + digitsVal fpart
        some (mkRat (if neg then -num else num) (10 ^ fpart.length))
      else none
  | _ => none

/-- `int(s)` for integer numerals: optional sign then digits only.
`none` models a `ValueError`. -/
def pyInt (s : String) : Option ℤ :=
  let (neg, body) : Bool × List Char :=
    match s.data with
    | '-' :: r => (true, r)
    | '+' :: r => (false, r)
    | r => (false, r)
  if body ≠ [] ∧ body.all isDigitCh then
    some (if neg then -(digitsVal body : ℤ) else (digitsVal body : ℤ))
  else none

/-- python2 `round`: round to nearest, halves away from zero.  For
`q ≥ 0` this is `⌊q + 1/2⌋`, computed as `(2·num + den) / (2·den)` in ℕ
so that the kernel can evaluate it; for `q < 0` it is `⌈q - 1/2⌉ = -round(-q)`. -/
def pyRound (q : ℚ) : ℤ :=
  if 0 ≤ q.num then
    ((2 * q.num.toNat + q.den) / (2 * q.den) : ℕ)
  else
    -(((2 * (-q.num).toNat + q.den) / (2 * q.den) : ℕ))

/-! ### Ordered-dictionary association lists -/

def dictFind? {κ α : Type} [DecidableEq κ] (d : List (κ × α)) (k : κ) : Option α :=
  (d.find? (fun p => p.1 = k)).map (·.2)

def dictSet {κ α : Type} [DecidableEq κ] (d : List (κ × α)) (k : κ) (v : α) :
    List (κ × α) :=
  if (d.find? (fun p => p.1 = k)).isSome then
    d.map (fun p => if p.1 = k then (k, v) else p)
  else
    d ++ [(k, v)]

/-! ### Coordinate conversions (module-level functions of `fritzing.py`) -/

/-- `make_x`: `int(round(float(x)))`. -/
def make_x (x : String) : Option ℤ :=
  (pyFloat x).map pyRound

/-- `make_y`: `-int(round(float(y)))`. -/
def make_y (y : String) : Option ℤ :=
  (pyFloat y).map (fun q => -pyRound q)

/-- `make_length`: `int(round(float(v)))`. -/
def make_length (v : String) : Option ℤ :=
  (pyFloat v).map pyRound

/-- `get_x(element, name)`: `make_x(element.get(name, 0))` — the default `0`
applies only when the attribute is absent. -/
def get_x (e : XmlElem) (name : String) : Option ℤ :=
  match e.get name with
  | none => some 0
  | some s => make_x s

/-- `get_y(element, name)`: `make_y(element.get(name, 0))`. -/
def get_y (e : XmlElem) (name : String) : Option ℤ :=
  match e.get name with
  | none => some 0
  | some s => make_y s

/-- `get_length(element, name)`: `make_length(element.get(name, 0))`. -/
def get_length (e : XmlElem) (name : String) : Option ℤ :=
  match e.get name with
  | none => some 0
  | some s => make_length s


/-! ### Design-model data (from `core.*`, as consumed by the parser) -/

/-- `core.net.NetPoint(point_id, x, y)`. -/
structure NetPoint where
  point_id : String
  x : ℤ
  y : ℤ
deriving DecidableEq

/-- `core.shape.{Circle, Line, Polygon, Rectangle}` as a closed variant.
A `Polygon` carries its point list; a `Rectangle` carries `x, y, width,
height` with `(x, y)` its (already converted) origin. -/
inductive Shape : Type where
  | circle (x y r : ℤ)
  | line (p1 p2 : ℤ × ℤ)
  | polygon (points : List (ℤ × ℤ))
  | rectangle (x y width height : ℤ)
deriving DecidableEq

/-- `core.components.Pin(pin_number, p1, p2)` — the parser uses the same
point for both terminal points. -/
structure Pin where
  pin_number : String
  p1 : ℤ × ℤ
  p2 : ℤ × ℤ
deriving DecidableEq

/-- `core.components.Body`: ordered shapes and pins.  (`Component` has
exactly one `Symbol` with exactly one `Body` in this parser, so the
`Symbol` wrapper is flattened away.) -/
structure Body where
  shapes : List Shape
  pins : List Pin
deriving DecidableEq

/-- `core.components.Component`: id, attribute dict, one body. -/
structure Component where
  name : Option String
  attributes : List (String × Option String)
  body : Body
deriving DecidableEq

/-- `core.component_instance.SymbolAttribute(x, y, rotation)`. -/
structure SymbolAttribute where
  x : ℤ
  y : ℤ
  rotation : ℚ
deriving DecidableEq

/-- `core.component_instance.ComponentInstance(instance_id, library_id,
symbol_index)` plus its added symbol attributes. -/
structure ComponentInstance where
  instance_id : Option String
  library_id : Option String
  symbol_index : ℕ
  symbol_attributes : List SymbolAttribute
deriving DecidableEq

/-- A net of the output design model (`build_nets` returns a list of these). -/
structure Net where
  net_id : String
  points : List NetPoint
deriving DecidableEq

/-- The mutable state of one `Fritzing` parser session:
`points`, `component_instances`, `connects`, `components`
(dictionary keys are attribute values and hence `Option String`). -/
structure FzState where
  points : List (Option String × List (Option String × NetPoint))
  component_instances : List (Option String × ComponentInstance)
  connects : List (List (Option String × Option String))
  components : List (Option String × Component)
deriving DecidableEq

/-- `Fritzing.__init__`: all accumulators empty. -/
def initFz : FzState :=
  { points := [], component_instances := [], connects := [], components := [] }

/-- The populated design (`core.design.Design` as the parser fills it). -/
structure Design where
  components : List (Option String × Component)
  component_instances : List ComponentInstance
  nets : List Net
deriving DecidableEq

/-- The filesystem: an existing path maps to `some content`, where
`content = some root` is its parsed XML document and `content = none`
models a file that exists but is not parseable XML
(`ElementTree(file=...)` raises on it). -/
structure FS where
  files : List (String × Option XmlElem)

def FS.find? (fs : FS) (p : String) : Option (Option XmlElem) :=
  dictFind? fs.files p

/-- `os.path.exists`. -/
def FS.pathExists (fs : FS) (p : String) : Bool :=
  (fs.find? p).isSome

/-- `ElementTree(file=p)`: the document root, or `none` when the file is
missing or unreadable (the constructor raises). -/
def FS.readRoot (fs : FS) (p : String) : Option XmlElem :=
  (fs.find? p).getD none

/-! ### `os.path` helpers -/

/-- Join character-list tokens with a separator character. -/
def joinChs (sep : Char) : List (List Char) → List Char
  | [] => []
  | [t] => t
  | t :: t2 :: ts => t ++ sep :: joinChs sep (t2 :: ts)

/-- `os.path.dirname`: everything before the last `'/'` (empty when none). -/
def dirname (p : String) : String :=
  ⟨joinChs '/' (splitOnCh '/' p.data).dropLast⟩

/-- `os.path.basename`: everything after the last `'/'`. -/
def basename (p : String) : String :=
  ⟨afterLastCh '/' p.data⟩

/-- `os.path.join` for the relative components used here. -/
def joinPath (parts : List String) : String :=
  parts.foldl (fun a b => if a = "" then b else a ++ "/" ++ b) ""


/-! ### The rotation table (`MATRIX2ROTATION`) -/

/-- The module dictionary `MATRIX2ROTATION` looked up with default `0.0`:
maps a 2×2 integer transform matrix `(m11, m12, m21, m22)` to a rotation
in units of π. -/
def MATRIX2ROTATION (m : ℤ × ℤ × ℤ × ℤ) : ℚ :=
  if m = (1, 0, 0, 1) then 0
  else if m = (0, 1, -1, 0) then mkRat 1 2
  else if m = (-1, 0, 0, -1) then 1
  else if m = (0, -1, 1, 0) then mkRat 3 2
  else 0

/-- `int(xform.get(key, 0))`: absent attribute defaults to `0`, a present
one is parsed with `int` (raising on non-integer text). -/
def get_int_attr (e : XmlElem) (name : String) : Option ℤ :=
  match e.get name with
  | none => some 0
  | some s => pyInt s

/-- The rotation computation of `parse_component_instance`
(`fritzing.py` lines 176–181): an absent `transform` block means zero
rotation, otherwise the four coefficients are looked up in
`MATRIX2ROTATION` with default `0.0`. -/
def decode_rotation (xform : Option XmlElem) : Option ℚ :=
  match xform with
  | none => some 0
  | some x => do
      let m11 ← get_int_attr x "m11"
      let m12 ← get_int_attr x "m12"
      let m21 ← get_int_attr x "m21"
      let m22 ← get_int_attr x "m22"
      pure (MATRIX2ROTATION (m11, m12, m21, m22))

/-! ### `ComponentParser` (parses components from Fritzing part libraries) -/

/-- `ComponentParser.parse_terminals`: map each connector's schematic-view
plug to the connector id — key `terminalId`, falling back to `svgId`;
connectors without a plug (or with neither id) contribute nothing. -/
def parse_terminals (tree : XmlElem) : List (String × Option String) :=
  (tree.findall ["connectors", "connector"]).foldl
    (fun terminals conn =>
      match conn.findPath ["views", "schematicView", "p"] with
      | none => terminals
      | some plug =>
          let cid := match plug.get "terminalId" with
                     | none => plug.get "svgId"
                     | some t => some t
          match cid with
          | none => terminals
          | some c => dictSet terminals c (conn.get "id"))
    []

/-- `ComponentParser.parse_rect`: `Rectangle(x, y - height, width, height)`. -/
def parse_rect (rect : XmlElem) : Option (List Shape) := do
  let x ← get_x rect "x"
  let y ← get_y rect "y"
  let width ← get_length rect "width"
  let height ← get_length rect "height"
  pure [Shape.rectangle x (y - height) width height]

/-- `ComponentParser.parse_line`. -/
def parse_line (rect : XmlElem) : Option (List Shape) := do
  let x1 ← get_x rect "x1"
  let y1 ← get_y rect "y1"
  let x2 ← get_x rect "x2"
  let y2 ← get_y rect "y2"
  pure [Shape.line (x1, y1) (x2, y2)]

/-- `ComponentParser.parse_circle`. -/
def parse_circle (circle : XmlElem) : Option (List Shape) := do
  let cx ← get_x circle "cx"
  let cy ← get_y circle "cy"
  let r ← get_length circle "r"
  pure [Shape.circle cx cy r]

/-- One `"x,y"` token of a polygon/polyline point list:
`x, y = point.split(',')` (raising unless exactly two parts) followed by
`make_x` / `make_y`. -/
def parse_poly_token (tok : List Char) : Option (ℤ × ℤ) :=
  match splitOnCh ',' tok with
  | [xs, ys] => do
      let x ← make_x ⟨xs⟩
      let y ← make_y ⟨ys⟩
      pure (x, y)
  | _ => none

/-- The point-accumulating loop shared by `parse_polygon` and
`parse_polyline`: `for point in poly.get('points', '').split(): if point: …`. -/
def poly_points (poly : XmlElem) : Option (List (ℤ × ℤ)) :=
  (pySplitWs ((poly.get "points").getD "").data).foldlM
    (fun acc tok =>
      if ¬ tok.isEmpty then
        (parse_poly_token tok).map (fun p => acc ++ [p])
      else some acc)
    []

/-- `ComponentParser.parse_polygon`: accumulate the points, then close the
polygon by repeating the first point — only when there is at least one. -/
def parse_polygon (poly : XmlElem) : Option (List Shape) := do
  let pts ← poly_points poly
  let closed := if pts.isEmpty then pts else pts ++ pts.take 1
  pure [Shape.polygon closed]

/-- `ComponentParser.parse_polyline`: one `Line` per consecutive point pair. -/
def parse_polyline (poly : XmlElem) : Option (List Shape) := do
  let pts ← poly_points poly
  pure (pts.zip pts.tail |>.map (fun pq => Shape.line pq.1 pq.2))

/-- `ComponentParser.get_pin`: a `Pin` (with the next sequential number)
iff the element's id is a key of the terminal map and the shape is a
rectangle (point `(x + width/2, y + height/2)`, python2 floor division)
or a circle (its centre); otherwise `None`.  Returns the new
`next_pin_number` alongside. -/
def get_pin (terminals : List (String × Option String)) (shape : Shape)
    (element : XmlElem) (npn : ℕ) : Option (Pin × ℕ) :=
  match element.get "id" with
  | none => none
  | some eid =>
      if (dictFind? terminals eid).isSome then
        match shape with
        | .rectangle x y width height =>
            let p := (x + Int.fdiv width 2, y + Int.fdiv height 2)
            some (⟨toString npn, p, p⟩, npn + 1)
        | .circle x y _ => some (⟨toString npn, (x, y), (x, y)⟩, npn + 1)
        | _ => none
      else none

/-- The parse-session state of one `ComponentParser`: the body being
filled and `next_pin_number`. -/
structure CPState where
  body : Body
  next_pin_number : ℕ
deriving DecidableEq

def initCP : CPState :=
  { body := { shapes := [], pins := [] }, next_pin_number := 0 }

/-- The body of the `for shape in shapes` loop of `parse_svg`: add the
shape, then add a pin when `get_pin` yields one. -/
def shape_step (terminals : List (String × Option String)) (element : XmlElem)
    (s : CPState) (shape : Shape) : CPState :=
  let s1 : CPState := { s with body := { s.body with shapes := s.body.shapes ++ [shape] } }
  match get_pin terminals shape element s1.next_pin_number with
  | none => s1
  | some (pin, npn) =>
      { s1 with body := { s1.body with pins := s1.body.pins ++ [pin] },
                next_pin_number := npn }

/-- One iteration of `parse_svg`'s element walk: dispatch on the local
tag name, then fold the produced shapes. -/
def process_svg_element (terminals : List (String × Option String))
    (s : CPState) (element : XmlElem) : Option CPState :=
  let tag := localName element.tag
  (if tag = "circle" then parse_circle element
   else if tag = "rect" then parse_rect element
   else if tag = "line" then parse_line element
   else if tag = "polygon" then parse_polygon element
   else if tag = "polyline" then parse_polyline element
   else some []).map
    (fun shapes => shapes.foldl (shape_step terminals element) s)

/-- The element walk of `parse_svg` over a list of elements. -/
def process_svg_elements (terminals : List (String × Option String))
    (s : CPState) (elems : List XmlElem) : Option CPState :=
  elems.foldlM (process_svg_element terminals) s

/-- `ComponentParser.parse_svg`: derive the svg path from the fzp path
and the declared image, return unchanged when the layers/image/file is
missing, raise when the svg file exists but is unreadable, otherwise
walk every element of the svg document. -/
def parse_svg (fs : FS) (terminals : List (String × Option String))
    (tree : XmlElem) (fzp_path : String) (s : CPState) : Option CPState :=
  match tree.findPath ["views", "schematicView", "layers"] with
  | none => some s
  | some layers =>
      match layers.get "image" with
      | none => some s
      | some image =>
          let fzp_dir := dirname fzp_path
          let parts_dir := dirname fzp_dir
          let svg_path := joinPath [parts_dir, "svg", basename fzp_dir, image]
          if fs.pathExists svg_path then
            match fs.readRoot svg_path with
            | none => none
            | some svgroot => process_svg_elements terminals s svgroot.iter
          else some s

/-- `ComponentParser.parse`: read the part file, read the `label` text as
the `_prefix` attribute (`tree.find('label').text` raises when there is
no `label` element), build the terminal map, then parse the svg.
`none` models an exception escaping `parse`. -/
def ComponentParser.parse (fs : FS) (idref : Option String) (path : String) :
    Option Component := do
  let tree ← fs.readRoot path
  let label ← tree.findPath ["label"]
  let terminals := parse_terminals tree
  let s ← parse_svg fs terminals tree path initCP
  pure { name := idref,
         attributes := [("_prefix", label.text)],
         body := s.body }

/-! ### The `Fritzing` parser session -/

/-- One iteration of the connector loop of `parse_wire` (`enumerate`d):
`pid = index + '.' + cid` (raising when either is `None`), the first
connector reads `x`/`y`, every later one reads `x2`/`y2` from the
geometry (raising when the geometry block is absent), and the resulting
`NetPoint` is stored under the connector id. -/
def wire_conn_step (geom : Option XmlElem) (index : Option String)
    (inner : List (Option String × NetPoint)) (ic : ℕ × XmlElem) :
    Option (List (Option String × NetPoint)) := do
  let connector := ic.2
  let cid := connector.get "connectorId"
  let ix ← index
  let c ← cid
  let g ← geom
  let xname := if ic.1 = 0 then "x" else "x2"
  let yname := if ic.1 = 0 then "y" else "y2"
  let px ← get_x g xname
  let py ← get_y g yname
  pure (dictSet inner cid ⟨ix ++ "." ++ c, px, py⟩)

/-- `Fritzing.add_connects`: for every connector of the view, collect its
`connects/connect` references whose layer is not the breadboard
sentinel; when any remain, prepend `(index, connectorId)` and append the
group to the global connects list. -/
def add_connects (index : Option String) (view : XmlElem)
    (connects : List (List (Option String × Option String))) :
    List (List (Option String × Option String)) :=
  (view.findall ["connectors", "connector"]).foldl
    (fun acc connector =>
      let cs := ((connector.findall ["connects", "connect"]).filter
          (fun c => ¬ c.get "layer" = some "breadboardbreadboard")).map
          (fun c => (c.get "modelIndex", c.get "connectorId"))
      if cs.isEmpty then acc
      else acc ++ [(index, connector.get "connectorId") :: cs])
    connects

/-- `Fritzing.parse_wire`: skip silently without a schematic view;
otherwise create `self.points[index]` and fill it with one `NetPoint`
per connector, then add the connects. -/
def parse_wire (st : FzState) (inst : XmlElem) : Option FzState :=
  match inst.findPath ["views", "schematicView"] with
  | none => some st
  | some view =>
      let index := inst.get "modelIndex"
      let geom := view.findPath ["geometry"]
      match (view.findall ["connectors", "connector"]).enum.foldlM
          (wire_conn_step geom index) [] with
      | none => none
      | some inner =>
          some { st with points := dictSet st.points index inner,
                         connects := add_connects index view st.connects }

/-- `Fritzing.ensure_component`: return the cached `Component` for the
instance's `moduleIdRef` if there is one; otherwise resolve the `path`
attribute (falling back to `lookup_part` when the file does not exist)
and parse the component, caching it only on success.  The outer `none`
models an exception escaping `ComponentParser.parse`; the inner
`Option Component` is the Python return value. -/
def ensure_component (lookup : String → String → Option String) (fs : FS)
    (fv : String) (st : FzState) (inst : XmlElem) :
    Option (Option Component × FzState) :=
  let idref := inst.get "moduleIdRef"
  match dictFind? st.components idref with
  | some cpt => some (some cpt, st)
  | none =>
      match inst.get "path" with
      | none => some (none, st)
      | some path =>
          if path = "" then some (none, st)
          else
            let path2 := if fs.pathExists path then some path else lookup path fv
            match path2 with
            | none => some (none, st)
            | some p =>
                if p = "" ∨ ¬ fs.pathExists p then some (none, st)
                else
                  match ComponentParser.parse fs idref p with
                  | none => none
                  | some cpt =>
                      some (some cpt,
                            { st with components := dictSet st.components idref cpt })

/-- `Fritzing.parse_component_instance`: skip without a schematic view or
when the view is breadboard-only; skip (without recording anything) when
the component cannot be resolved; otherwise read `title` (raising when
the element is absent), geometry (raising when absent), decode the
rotation and position, record the `ComponentInstance` and the connects. -/
def parse_component_instance (lookup : String → String → Option String)
    (fs : FS) (fv : String) (st : FzState) (inst : XmlElem) : Option FzState :=
  match inst.findPath ["views", "schematicView"] with
  | none => some st
  | some view =>
      if view.get "layer" = some "breadboardbreadboard" then some st
      else
        match ensure_component lookup fs fv st inst with
        | none => none
        | some (none, st1) => some st1
        | some (some _, st1) =>
            let index := inst.get "modelIndex"
            let idref := inst.get "moduleIdRef"
            match inst.findPath ["title"] with
            | none => none
            | some titleElem =>
                let title := titleElem.text
                match view.findPath ["geometry"] with
                | none => none
                | some geom => do
                    let rotation ← decode_rotation (geom.findPath ["transform"])
                    let x ← get_x geom "x"
                    let y ← get_y geom "y"
                    let compinst : ComponentInstance :=
                      ⟨title, idref, 0, [⟨x, y, rotation⟩]⟩
                    pure { st1 with
                           component_instances :=
                             dictSet st1.component_instances index compinst,
                           connects := add_connects index view st1.connects }

/-- `Fritzing.parse_instance`: a wire iff `moduleIdRef` is the reserved
`'WireModuleID'` sentinel. -/
def parse_instance (lookup : String → String → Option String) (fs : FS)
    (fv : String) (st : FzState) (inst : XmlElem) : Option FzState :=
  if inst.get "moduleIdRef" = some "WireModuleID" then parse_wire st inst
  else parse_component_instance lookup fs fv st inst

/-- The `for element in tree.findall('instances/instance')` loop of
`Fritzing.parse`. -/
def parse_instances (lookup : String → String → Option String) (fs : FS)
    (fv : String) (st : FzState) (insts : List XmlElem) : Option FzState :=
  insts.foldlM (parse_instance lookup fs fv) st

/-- `Fritzing.build_nets`: the net-building hook — as implemented it
ignores the accumulated connects, points and instances and returns the
empty list. -/
def build_nets (_st : FzState) : List Net :=
  []

/-- `Fritzing.parse`: read the sketch (raising when missing/unreadable —
the only state observable afterwards), walk every instance, then hand
components, component instances and nets to the design. -/
def Fritzing.parse (lookup : String → String → Option String) (fs : FS)
    (filename : String) : Option Design := do
  let tree ← fs.readRoot filename
  let fv := (tree.get "fritzingVersion").getD "0"
  let st ← parse_instances lookup fs fv initFz (tree.findall ["instances", "instance"])
  pure { components := st.components,
         component_instances := st.component_instances.map (·.2),
         nets := build_nets st }

/-! ### Fixtures used by the claim theorems below -/

/-! ### Concrete sketch fixtures -/

/-- A wire geometry: primary end `(0, 0)`, secondary end `(10, 0)`. -/
def geomElem : XmlElem :=
  .mk "geometry" [("x", "0"), ("y", "0"), ("x2", "10"), ("y2", "0")] [] none

/-- A connector element with the given id and `connects/connect` references. -/
def connectorElem (cid : String) (refs : List (String × String)) : XmlElem :=
  .mk "connector" [("connectorId", cid)]
    [.mk "connects" []
      (refs.map (fun r => .mk "connect" [("modelIndex", r.1), ("connectorId", r.2)] [] none))
      none] none

/-- A wire instance with the given model index and connectors. -/
def wireInst (idx : String) (conns : List XmlElem) : XmlElem :=
  .mk "instance" [("moduleIdRef", "WireModuleID"), ("modelIndex", idx)]
    [.mk "views" []
      [.mk "schematicView" [] [geomElem, .mk "connectors" [] conns none] none]
      none] none

/-! ### Component-instance fixtures -/

/-- An already-parsed component, as cached under `'mod1'`. -/
def cpt0 : Component :=
  { name := some "mod1", attributes := [("_prefix", some "U")],
    body := { shapes := [], pins := [] } }

/-- A session state whose component cache already holds `'mod1'`. -/
def cachedSt : FzState :=
  { initFz with components := [(some "mod1", cpt0)] }

/-- A schematic view with a plain geometry block at `(1, 2)`. -/
def schColView : XmlElem :=
  .mk "schematicView" [] [.mk "geometry" [("x", "1"), ("y", "2")] [] none] none

/-- A `'mod1'` instance with a view and a title but no `path` attribute. -/
def instNoPath : XmlElem :=
  .mk "instance" [("moduleIdRef", "mod1"), ("modelIndex", "9")]
    [.mk "views" [] [schColView] none,
     .mk "title" [] [] (some "T")] none

/-- A `'mod1'` instance with a schematicView but no `title` element. -/
def instNoTitle : XmlElem :=
  .mk "instance" [("moduleIdRef", "mod1"), ("modelIndex", "9")]
    [.mk "views" [] [schColView] none] none

/-! ### C8: pins -/

/-- Modelled from the spec's words, for comparison with the code: the
exact geometric centre of a rectangle with origin `(x, y)`, as C8 reads
"Pin placed at the rectangle's center". -/
def claim_rect_center (x y width height : ℤ) : ℚ × ℚ :=
  ((x : ℚ) + width / 2, (y : ℚ) + height / 2)

/-- The numbering invariant of one `ComponentParser`: the next pin
number equals the count of pins so far, and the pins are numbered
`0, 1, 2, …` in order. -/
def PinInv (s : CPState) : Prop :=
  s.next_pin_number = s.body.pins.length ∧
  s.body.pins.map Pin.pin_number = (List.range s.body.pins.length).map toString

/-- A terminal-mapped svg rectangle element. -/
def svgRectE1 : XmlElem :=
  .mk "rect" [("id", "e1"), ("x", "0"), ("y", "0"), ("width", "2"), ("height", "2")]
    [] none


/-! ### Sanity checks (kernel evaluation of the embedding) -/

example : pyFloat "2.5" = some (mkRat 25 10) := by decide
example : pyFloat "-3" = some (-3) := by decide
example : pyFloat "abc" = none := by decide
example : pyFloat "" = none := by decide
example : pyFloat ".5" = some (mkRat 5 10) := by decide
example : make_x "2.5" = some 3 := by decide
example : make_y "2.5" = some (-3) := by decide
example : make_y "-0.4" = some 0 := by decide
example : make_y "-2.5" = some 3 := by decide
example : pyInt "-7" = some (-7) := by decide
example : pyInt "2.0" = none := by decide
example : localName "{http://www.w3.org/2000/svg}rect" = "rect" := by decide
example : pySplitWs "0,0  10,0 ".data = ["0,0".data, "10,0".data] := by decide
example : dirname "parts/core/x.fzp" = "parts/core" := by decide
example : basename "parts/core/x.fzp" = "x.fzp" := by decide
example : dirname "parts/core" = "parts" := by decide
example : joinPath ["parts", "svg", "core", "x.svg"] = "parts/svg/core/x.svg" := by decide

/-! ### Properties of `pyRound` -/

lemma pyRound_nearest_nonneg (q : ℚ) (h : 0 ≤ q.num) :
    |(pyRound q : ℚ) - q| ≤ 1 / 2 := by
  have hdpos := q.den_pos
  have hd : (0 : ℚ) < (q.den : ℚ) := by exact_mod_cast hdpos
  have hqd : (q.num : ℚ) = q * (q.den : ℚ) := by
    nth_rewrite 2 [← Rat.num_div_den q]
    rw [div_mul_cancel₀ _ (ne_of_gt hd)]
  have hntq : ((q.num.toNat : ℕ) : ℚ) = q * (q.den : ℚ) := by
    rw [← hqd]
    have : (q.num.toNat : ℤ) = q.num := Int.toNat_of_nonneg h
    exact_mod_cast this
  set k : ℕ := (2 * q.num.toNat + q.den) / (2 * q.den) with hkdef
  have hpr : pyRound q = (k : ℤ) := by
    unfold pyRound
    rw [if_pos h]
  have hDpos : 0 < 2 * q.den := by omega
  have h1 : k * (2 * q.den) ≤ 2 * q.num.toNat + q.den := Nat.div_mul_le_self _ _
  have h2 : 2 * q.num.toNat + q.den < (2 * q.den) * (k + 1) :=
    Nat.lt_mul_div_succ _ hDpos
  have h1q : (k : ℚ) * (2 * (q.den : ℚ)) ≤ 2 * (q.num.toNat : ℚ) + (q.den : ℚ) := by
    exact_mod_cast h1
  have h2q : 2 * (q.num.toNat : ℚ) + (q.den : ℚ) < (2 * (q.den : ℚ)) * ((k : ℚ) + 1) := by
    exact_mod_cast h2
  rw [hpr, Int.cast_natCast, abs_le]
  rw [hntq] at h1q h2q
  constructor
  · nlinarith [hd, h1q, h2q]
  · nlinarith [hd, h1q, h2q]

lemma pyRound_neg (q : ℚ) : pyRound (-q) = -pyRound q := by
  unfold pyRound
  rw [Rat.neg_num, Rat.neg_den]
  rcases lt_trichotomy q.num 0 with h | h | h
  · rw [if_pos (by omega), if_neg (by omega)]
    ring
  · rw [h]
    have hz : ((2 * (0 : ℤ).toNat + q.den) / (2 * q.den)) = 0 :=
      Nat.div_eq_of_lt (by have := q.den_pos; omega)
    have hz' : ((2 * (-(0 : ℤ)).toNat + q.den) / (2 * q.den)) = 0 :=
      Nat.div_eq_of_lt (by have := q.den_pos; omega)
    rw [if_pos (by omega), if_pos (by omega), hz, hz']
    simp
  · rw [if_neg (by omega), if_pos (by omega), neg_neg]

lemma pyRound_nearest (q : ℚ) : |(pyRound q : ℚ) - q| ≤ 1 / 2 := by
  rcases le_or_lt 0 q.num with h | h
  · exact pyRound_nearest_nonneg q h
  · have h' : 0 ≤ (-q).num := by rw [Rat.neg_num]; omega
    have hn := pyRound_nearest_nonneg (-q) h'
    rw [pyRound_neg] at hn
    push_cast at hn
    rwa [show -(pyRound q : ℚ) - -q = -((pyRound q : ℚ) - q) by ring, abs_neg] at hn

lemma pyRound_nonneg (q : ℚ) (h : 0 ≤ q) : 0 ≤ pyRound q := by
  unfold pyRound
  rw [if_pos (Rat.num_nonneg.mpr h)]
  exact Int.natCast_nonneg _

lemma pyRound_nonpos (q : ℚ) (h : q ≤ 0) : pyRound q ≤ 0 := by
  unfold pyRound
  split
  · rename_i h'
    have h0 : q.num = 0 := le_antisymm (Rat.num_nonpos.mpr h) h'
    rw [h0]
    have hz : ((2 * (0 : ℤ).toNat + q.den) / (2 * q.den)) = 0 :=
      Nat.div_eq_of_lt (by have := q.den_pos; omega)
    rw [hz]
    simp
  · exact neg_nonpos.mpr (Int.natCast_nonneg _)

lemma pyRound_intCast (n : ℤ) : pyRound ((n : ℚ)) = n := by
  unfold pyRound
  rw [Rat.num_intCast, Rat.den_intCast]
  split
  · omega
  · omega

/-- C5: the rotation decoder maps `(1,0,0,1) ↦ 0`, `(0,1,-1,0) ↦ 0.5`,
`(-1,0,0,-1) ↦ 1`, `(0,-1,1,0) ↦ 1.5` (units of π); every other matrix
maps to `0`; an absent `transform` block yields rotation `0`; the table
lookup itself is total, so decoding an integer matrix never fails. -/
theorem c5_rotation_table :
    MATRIX2ROTATION (1, 0, 0, 1) = 0 ∧
    MATRIX2ROTATION (0, 1, -1, 0) = 1 / 2 ∧
    MATRIX2ROTATION (-1, 0, 0, -1) = 1 ∧
    MATRIX2ROTATION (0, -1, 1, 0) = 3 / 2 ∧
    (∀ m : ℤ × ℤ × ℤ × ℤ,
      m ∉ [((1 : ℤ), (0 : ℤ), (0 : ℤ), (1 : ℤ)), (0, 1, -1, 0),
           (-1, 0, 0, -1), (0, -1, 1, 0)] →
      MATRIX2ROTATION m = 0) ∧
    decode_rotation none = some 0 := by
  refine ⟨by norm_num [MATRIX2ROTATION], ?_, by norm_num [MATRIX2ROTATION], ?_, ?_, rfl⟩
  · rw [show MATRIX2ROTATION (0, 1, -1, 0) = mkRat 1 2 by norm_num [MATRIX2ROTATION],
      Rat.mkRat_eq_divInt, Rat.divInt_eq_div]
    norm_num
  · rw [show MATRIX2ROTATION (0, -1, 1, 0) = mkRat 3 2 by norm_num [MATRIX2ROTATION],
      Rat.mkRat_eq_divInt, Rat.divInt_eq_div]
    norm_num
  · intro m hm
    simp only [List.mem_cons, List.mem_singleton, List.not_mem_nil] at hm
    push_neg at hm
    unfold MATRIX2ROTATION
    rw [if_neg hm.1, if_neg hm.2.1, if_neg hm.2.2.1, if_neg (by
      intro hc
      exact hm.2.2.2.1 hc)]

theorem c5_witness : MATRIX2ROTATION (2, 0, 0, 2) = 0 :=
  c5_rotation_table.2.2.2.2.1 (2, 0, 0, 2) (by decide)

/-- C6: for every numeric input, `make_x` and `make_length` round the
value to the nearest integer without changing its sign, and `make_y`
rounds to the nearest integer and then negates; in particular,
`make_y(y) = -y` exactly for every integer input `y`.  (`pyRound` is
python2's `round`; nearness is `|round(q) - q| ≤ 1/2`, and "no sign
change" is that a nonnegative value never rounds negative and vice
versa.) -/
theorem c6_coordinate_conversions (s : String) (q : ℚ) (h : pyFloat s = some q) :
    make_x s = some (pyRound q) ∧
    make_length s = some (pyRound q) ∧
    make_y s = some (-pyRound q) ∧
    |(pyRound q : ℚ) - q| ≤ 1 / 2 ∧
    (0 ≤ q → 0 ≤ pyRound q) ∧
    (q ≤ 0 → pyRound q ≤ 0) ∧
    (∀ n : ℤ, q = (n : ℚ) → make_y s = some (-n) ∧ make_x s = some n) := by
  refine ⟨by simp [make_x, h], by simp [make_length, h], by simp [make_y, h],
    pyRound_nearest q, pyRound_nonneg q, pyRound_nonpos q, ?_⟩
  intro n hn
  subst hn
  constructor
  · simp [make_y, h, pyRound_intCast]
  · simp [make_x, h, pyRound_intCast]

theorem c6_witness :
    pyFloat "7" = some ((7 : ℤ) : ℚ) ∧ make_y "7" = some (-7) ∧ make_x "7" = some 7 := by
  refine ⟨by decide, ?_⟩
  have h := (c6_coordinate_conversions "7" ((7 : ℤ) : ℚ) (by decide)).2.2.2.2.2.2 7 rfl
  exact h

/-! ### Fold lemmas for the polygon/polyline point loop -/

/-- An `Option`-valued `foldlM` fails as soon as any element makes the
step fail independently of the accumulator. -/
lemma foldlM_option_none {α β : Type} (f : β → α → Option β) (l : List α) (a : α)
    (ha : a ∈ l) (hf : ∀ b, f b a = none) : ∀ init, l.foldlM f init = none := by
  induction l with
  | nil => cases ha
  | cons x xs ih =>
      intro init
      rcases List.mem_cons.mp ha with rfl | hmem
      · simp [List.foldlM_cons, hf]
      · cases hfx : f init x with
        | none => simp [List.foldlM_cons, hfx]
        | some b =>
            simp only [List.foldlM_cons, hfx, Option.bind_some]
            exact ih hmem b

/-- The point-accumulating fold is `mapM` over the (all-nonempty) tokens. -/
lemma poly_fold_mapM (toks : List (List Char)) (h : ∀ t ∈ toks, t.isEmpty = false) :
    ∀ acc, (toks.foldlM (fun acc tok =>
        if ¬ tok.isEmpty then (parse_poly_token tok).map (fun p => acc ++ [p])
        else some acc) acc)
      = (toks.mapM parse_poly_token).map (fun l => acc ++ l) := by
  induction toks with
  | nil => intro acc; simp [List.mapM, List.mapM.loop]
  | cons t ts ih =>
      intro acc
      have hne : t.isEmpty = false := h t (List.mem_cons_self t ts)
      have hcond : ¬ t.isEmpty = true := by simp [hne]
      rw [List.foldlM_cons, List.mapM_cons, if_pos hcond]
      cases hpt : parse_poly_token t with
      | none => simp [hpt]
      | some p =>
          simp only [Option.map_some', Option.bind_eq_bind', Option.some_bind]
          rw [ih (fun x hx => h x (List.mem_cons_of_mem _ hx)) (acc ++ [p])]
          cases hts : ts.mapM parse_poly_token with
          | none => simp
          | some rest => simp

/-- `poly_points` is `mapM parse_poly_token` over the whitespace tokens. -/
lemma poly_points_eq (poly : XmlElem) :
    poly_points poly =
      ((pySplitWs ((poly.get "points").getD "").data).mapM parse_poly_token) := by
  unfold poly_points
  rw [poly_fold_mapM _ (fun t ht => by
    unfold pySplitWs at ht
    simpa using (List.mem_filter.mp ht).2) []]
  simp

/-- C4 counterexample: an attribute holding unparsable text does NOT
default to `0` — `float('abc')` raises, so `get_x` aborts (`none`), and
a malformed `"x,y"` token aborts the whole polygon instead of being
skipped (skipping would have produced the closed one-point polygon). -/
theorem c4_counterexample_unparsable_aborts :
    get_x (XmlElem.mk "rect" [("x", "abc")] [] none) "x" = none ∧
    get_x (XmlElem.mk "rect" [("x", "abc")] [] none) "x" ≠ some 0 ∧
    parse_polygon (XmlElem.mk "polygon" [("points", "foo 0,0")] [] none) = none ∧
    parse_polygon (XmlElem.mk "polygon" [("points", "foo 0,0")] [] none) ≠
      some [Shape.polygon [(0, 0), (0, 0)]] := by
  exact ⟨by decide, by decide, by decide, by decide⟩

/-- C4 (amended): the coordinate/length extractors default to `0` only
for an *absent* attribute; a present attribute with unparsable text
raises (aborting the parse); and a malformed token in a polygon or
polyline point list likewise aborts the shape (whitespace splitting
never produces empty tokens, so no token is ever skipped). -/
theorem c4_numeric_defaults (e : XmlElem) (name : String) :
    (e.get name = none →
      get_x e name = some 0 ∧ get_y e name = some 0 ∧ get_length e name = some 0) ∧
    (∀ s, e.get name = some s → pyFloat s = none →
      get_x e name = none ∧ get_y e name = none ∧ get_length e name = none) ∧
    (∀ poly : XmlElem, ∀ tok ∈ pySplitWs ((poly.get "points").getD "").data,
      parse_poly_token tok = none →
      parse_polygon poly = none ∧ parse_polyline poly = none) := by
  refine ⟨fun h => ⟨by simp [get_x, h], by simp [get_y, h], by simp [get_length, h]⟩,
    fun s hs hf => ⟨by simp [get_x, hs, make_x, hf], by simp [get_y, hs, make_y, hf],
      by simp [get_length, hs, make_length, hf]⟩,
    fun poly tok htok hfail => ?_⟩
  have hne : tok.isEmpty = false := by
    unfold pySplitWs at htok
    simpa using (List.mem_filter.mp htok).2
  have hpp : poly_points poly = none := by
    unfold poly_points
    exact foldlM_option_none _ _ tok htok
      (fun b => by simp [hne, hfail]) []
  exact ⟨by simp [parse_polygon, hpp], by simp [parse_polyline, hpp]⟩

theorem c4_witness :
    get_x (XmlElem.mk "rect" [] [] none) "x" = some 0 ∧
    parse_polygon (XmlElem.mk "polygon" [("points", "1,2 zz")] [] none) = none := by
  constructor
  · exact ((c4_numeric_defaults (XmlElem.mk "rect" [] [] none) "x").1 (by decide)).1
  · exact ((c4_numeric_defaults (XmlElem.mk "rect" [] [] none) "x").2.2
      (XmlElem.mk "polygon" [("points", "1,2 zz")] [] none) "zz".data
      (by decide) (by decide)).1

/-- C7: a polygon whose points attribute parses to at least one point
stores the parsed points followed by one repetition of the first point;
with no parsed points, no closing point is added. -/
theorem c7_polygon_closure (poly : XmlElem) (pts : List (ℤ × ℤ))
    (hp : (pySplitWs ((poly.get "points").getD "").data).mapM parse_poly_token =
      some pts) :
    (pts ≠ [] → parse_polygon poly = some [Shape.polygon (pts ++ pts.take 1)]) ∧
    (pts = [] → parse_polygon poly = some [Shape.polygon []]) := by
  have hpp : poly_points poly = some pts := by
    rw [poly_points_eq]
    exact hp
  constructor
  · intro hne
    have hie : pts.isEmpty = false := by
      cases pts with
      | nil => cases hne rfl
      | cons a l => rfl
    simp [parse_polygon, hpp, hie]
  · intro h0
    subst h0
    simp [parse_polygon, hpp]

theorem c7_witness :
    parse_polygon (XmlElem.mk "polygon" [("points", "0,0 10,0 10,10")] [] none) =
      some [Shape.polygon [(0, 0), (10, 0), (10, -10), (0, 0)]] := by
  have h := (c7_polygon_closure
    (XmlElem.mk "polygon" [("points", "0,0 10,0 10,10")] [] none)
    [(0, 0), (10, 0), (10, -10)] (by decide)).1 (by decide)
  simpa using h

/-- C1 (code bug): `build_nets` is a stub returning `[]`.  Parsing a
sketch with two wires whose ConnectionRecords chain `1.0–2.0` and
`2.0–3.0` accumulates exactly those records, yet `build_nets` produces
no nets at all — so no terminal is placed in any Net, contradicting the
claimed partition (and the function's own docstring, which says it
builds the nets from the connects). -/
theorem c1_build_nets_returns_no_nets :
    (parse_instances (fun _ _ => none) ⟨[]⟩ "0" initFz
        [wireInst "1" [connectorElem "0" [("2", "0")], connectorElem "1" []],
         wireInst "2" [connectorElem "0" [("3", "0")], connectorElem "1" []]]).map
      (fun st => (st.connects, build_nets st))
      = some ([[(some "1", some "0"), (some "2", some "0")],
               [(some "2", some "0"), (some "3", some "0")]], []) := by
  decide

/-- C3 counterexample: a wire instance with a schematicView block but a
single connector creates exactly one NetPoint, not two. -/
theorem c3_counterexample_one_connector_wire :
    (parse_wire initFz (wireInst "5" [connectorElem "0" []])).map
        (fun st => dictFind? st.points (some "5"))
      = some (some [(some "0", NetPoint.mk "5.0" 0 0)]) ∧
    (parse_wire initFz (wireInst "5" [connectorElem "0" []])).map
        (fun st => ((dictFind? st.points (some "5")).getD []).length == 2)
      = some false := by
  exact ⟨by decide, by decide⟩

/-! ### Dictionary lemmas -/

lemma dictFind?_cons {κ α : Type} [DecidableEq κ] (k' : κ) (v : α)
    (d : List (κ × α)) (k : κ) :
    dictFind? ((k', v) :: d) k = if k' = k then some v else dictFind? d k := by
  by_cases h : k' = k <;> simp [dictFind?, List.find?_cons, h]

lemma dictSet_of_find?_none {κ α : Type} [DecidableEq κ] (d : List (κ × α)) (k : κ)
    (v : α) (h : dictFind? d k = none) : dictSet d k v = d ++ [(k, v)] := by
  have h' : d.find? (fun p => p.1 = k) = none := by
    simpa [dictFind?] using h
  unfold dictSet
  rw [h']
  simp

/-- Looking a key up in an entry list built by mapping over the key list. -/
lemma dictFind?_map_entry {α : Type} (f : String → α) (l : List String) (c : String)
    (h : c ∈ l) :
    dictFind? (l.map (fun c => (some c, f c))) (some c) = some (f c) := by
  induction l with
  | nil => cases h
  | cons r rs ih =>
      rw [List.map_cons, dictFind?_cons]
      by_cases hrc : r = c
      · subst hrc
        simp
      · rw [if_neg (by simpa using hrc)]
        refine ih ?_
        rcases List.mem_cons.mp h with h' | h'
        · exact absurd h'.symm hrc
        · exact h'

/-- Folding `dictSet` over pairwise-distinct keys that are all fresh for
the accumulator appends the entries in order. -/
lemma foldl_dictSet_fresh {α : Type} (f : String → α) :
    ∀ (cids : List String) (acc : List (Option String × α)),
      cids.Nodup →
      (∀ c ∈ cids, dictFind? acc (some c) = none) →
      cids.foldl (fun d c => dictSet d (some c) (f c)) acc
        = acc ++ cids.map (fun c => (some c, f c)) := by
  intro cids
  induction cids with
  | nil => intro acc _ _; simp
  | cons c cs ih =>
      intro acc hnd hfresh
      obtain ⟨hnin, hnd'⟩ := List.nodup_cons.mp hnd
      rw [List.foldl_cons,
        dictSet_of_find?_none acc (some c) (f c) (hfresh c (List.mem_cons_self c cs)),
        ih (acc ++ [(some c, f c)]) hnd' ?_]
      · simp
      · intro c' hc'
        have hne : ¬ (some c = some c') := by
          simp only [Option.some.injEq]
          intro hh
          exact hnin (hh ▸ hc')
        have h1 : dictFind? [((some c : Option String), f c)] (some c') = none := by
          rw [dictFind?_cons, if_neg hne]
          rfl
        have h2 := hfresh c' (List.mem_cons_of_mem _ hc')
        simp [dictFind?, List.find?_append] at h2 h1 ⊢
        exact ⟨h2, h1⟩

/-! ### Wire-loop lemmas -/

lemma wire_conn_step_eq (g : XmlElem) (ix : String) (i : ℕ) (conn : XmlElem)
    (c : String) (inner : List (Option String × NetPoint)) (px py : ℤ)
    (hc : conn.get "connectorId" = some c)
    (hx : get_x g (if i = 0 then "x" else "x2") = some px)
    (hy : get_y g (if i = 0 then "y" else "y2") = some py) :
    wire_conn_step (some g) (some ix) inner (i, conn) =
      some (dictSet inner (some c) ⟨ix ++ "." ++ c, px, py⟩) := by
  simp only [wire_conn_step, hc, Option.bind_eq_bind', Option.some_bind]
  rw [hx]
  simp only [Option.some_bind]
  rw [hy]
  simp only [Option.some_bind]
  rfl

/-- Behind the first connector (`j ≥ 1`), every connector reads `x2`/`y2`,
so the remaining fold only appends uniform entries. -/
lemma wire_fold_tail (g : XmlElem) (ix : String) (x2 y2 : ℤ)
    (hx2 : get_x g "x2" = some x2) (hy2 : get_y g "y2" = some y2) :
    ∀ (conns : List XmlElem) (cids : List String) (j : ℕ), 0 < j →
      conns.map (fun c => c.get "connectorId") = cids.map some →
      ∀ acc, (conns.enumFrom j).foldlM (wire_conn_step (some g) (some ix)) acc =
        some (cids.foldl (fun d c => dictSet d (some c)
          ⟨ix ++ "." ++ c, x2, y2⟩) acc) := by
  intro conns
  induction conns with
  | nil =>
      intro cids j hj hmap acc
      cases cids with
      | nil => simp
      | cons c cs => simp at hmap
  | cons conn rest ih =>
      intro cids j hj hmap acc
      cases cids with
      | nil => simp at hmap
      | cons c cs =>
          simp only [List.map_cons, List.cons.injEq] at hmap
          obtain ⟨hc, hrest⟩ := hmap
          rw [List.enumFrom_cons, List.foldlM_cons,
            wire_conn_step_eq g ix j conn c acc x2 y2 hc
              (by rw [if_neg (by omega)]; exact hx2)
              (by rw [if_neg (by omega)]; exact hy2)]
          simp only [Option.bind_eq_bind', Option.some_bind]
          rw [List.foldl_cons]
          exact ih cs (j + 1) (by omega) hrest _

/-- C3 (amended): `parse_instance` classifies an instance as a wire iff
its `moduleIdRef` equals the reserved `'WireModuleID'` sentinel; a wire
instance without a schematicView block creates no NetPoints and is
silently skipped; a wire instance with a schematicView creates one
NetPoint per connector sub-element (exactly two only when the wire has
exactly two connectors), keyed by `(modelIndex, connectorId)`, where the
first connector in document order takes its coordinates from the
geometry's `x`/`y` fields and every later connector from `x2`/`y2`. -/
theorem c3_wire_points (lookup : String → String → Option String) (fs : FS)
    (fv : String) (st : FzState) (inst view geom : XmlElem) (ix : String)
    (x1 y1 x2 y2 : ℤ) (cids : List String)
    (hwire : inst.get "moduleIdRef" = some "WireModuleID")
    (hview : inst.findPath ["views", "schematicView"] = some view)
    (hix : inst.get "modelIndex" = some ix)
    (hmap : (view.findall ["connectors", "connector"]).map (fun c => c.get "connectorId")
      = cids.map some)
    (hnodup : cids.Nodup)
    (hgeom : view.findPath ["geometry"] = some geom)
    (hx1 : get_x geom "x" = some x1) (hy1 : get_y geom "y" = some y1)
    (hx2 : get_x geom "x2" = some x2) (hy2 : get_y geom "y2" = some y2) :
    parse_instance lookup fs fv st inst = parse_wire st inst ∧
    (∀ inst2 : XmlElem, inst2.findPath ["views", "schematicView"] = none →
      parse_wire st inst2 = some st) ∧
    (∀ inst3 : XmlElem, ¬ inst3.get "moduleIdRef" = some "WireModuleID" →
      parse_instance lookup fs fv st inst3 =
        parse_component_instance lookup fs fv st inst3) ∧
    ∃ inner, parse_wire st inst =
        some { st with points := dictSet st.points (some ix) inner,
                       connects := add_connects (some ix) view st.connects } ∧
      inner.length = (view.findall ["connectors", "connector"]).length ∧
      inner.length = cids.length ∧
      (∀ i : ℕ, ∀ hi : i < cids.length,
        dictFind? inner (some (cids.get ⟨i, hi⟩)) =
          some ⟨ix ++ "." ++ cids.get ⟨i, hi⟩,
                if i = 0 then x1 else x2,
                if i = 0 then y1 else y2⟩) := by
  refine ⟨by simp [parse_instance, hwire],
    fun inst2 h2 => by simp [parse_wire, h2],
    fun inst3 h3 => by simp [parse_instance, h3], ?_⟩
  cases hcc : view.findall ["connectors", "connector"] with
  | nil =>
      rw [hcc] at hmap
      have hcn : cids = [] := by
        cases cids with
        | nil => rfl
        | cons a l => simp at hmap
      subst hcn
      refine ⟨[], ?_, by simp [hcc], rfl, ?_⟩
      · simp only [parse_wire, hview, hix, hcc, List.enum_nil, List.foldlM_nil]
      · intro i hi
        simp at hi
  | cons conn0 rconns =>
      rw [hcc] at hmap
      cases cids with
      | nil => simp at hmap
      | cons c0 cs =>
          simp only [List.map_cons, List.cons.injEq] at hmap
          obtain ⟨hc0, hrest⟩ := hmap
          obtain ⟨hc0nin, hcsnd⟩ := List.nodup_cons.mp hnodup
          have hstep0 : wire_conn_step (some geom) (some ix) [] (0, conn0)
              = some [(some c0, ⟨ix ++ "." ++ c0, x1, y1⟩)] := by
            rw [wire_conn_step_eq geom ix 0 conn0 c0 [] x1 y1 hc0
              (by simpa using hx1) (by simpa using hy1)]
            rw [dictSet_of_find?_none ([] : List (Option String × NetPoint))
              (some c0) ⟨ix ++ "." ++ c0, x1, y1⟩ rfl]
            simp
          have hfresh : ∀ c ∈ cs,
              dictFind? [((some c0 : Option String),
                (⟨ix ++ "." ++ c0, x1, y1⟩ : NetPoint))] (some c) = none := by
            intro c hc
            rw [dictFind?_cons, if_neg]
            · rfl
            · simp only [Option.some.injEq]
              intro hh
              exact hc0nin (hh ▸ hc)
          have htail := wire_fold_tail geom ix x2 y2 hx2 hy2 rconns cs 1 (by omega)
            hrest [(some c0, ⟨ix ++ "." ++ c0, x1, y1⟩)]
          rw [foldl_dictSet_fresh (fun c => (⟨ix ++ "." ++ c, x2, y2⟩ : NetPoint))
            cs _ hcsnd hfresh] at htail
          have hfold : ((conn0 :: rconns).enum).foldlM
              (wire_conn_step (some geom) (some ix)) []
              = some ([((some c0 : Option String),
                  (⟨ix ++ "." ++ c0, x1, y1⟩ : NetPoint))] ++
                cs.map (fun c => (some c, (⟨ix ++ "." ++ c, x2, y2⟩ : NetPoint)))) := by
            rw [List.enum_cons, List.foldlM_cons, hstep0]
            simp only [Option.bind_eq_bind', Option.some_bind]
            exact htail
          have hlen : rconns.length = cs.length := by
            have := congrArg List.length hrest
            simpa using this
          refine ⟨[((some c0 : Option String),
              (⟨ix ++ "." ++ c0, x1, y1⟩ : NetPoint))] ++
            cs.map (fun c => (some c, (⟨ix ++ "." ++ c, x2, y2⟩ : NetPoint))),
            ?_, by simp [hcc, hlen], by simp, ?_⟩
          · simp only [parse_wire, hview, hix, hgeom, hcc]
            rw [hfold]
          · intro i hi
            cases i with
            | zero =>
                simp only [List.get, List.singleton_append, dictFind?_cons, if_pos rfl]
                simp
            | succ j =>
                have hj : j < cs.length := by simpa using hi
                have hmem : cs.get ⟨j, hj⟩ ∈ cs := cs.get_mem j hj
                simp only [List.get, List.singleton_append, dictFind?_cons]
                rw [if_neg (by
                  simp only [Option.some.injEq]
                  intro hh
                  exact hc0nin (hh ▸ hmem))]
                rw [dictFind?_map_entry (fun c => (⟨ix ++ "." ++ c, x2, y2⟩ : NetPoint))
                  cs _ hmem]
                simp

theorem c3_witness :
    ∃ inner : List (Option String × NetPoint),
      parse_wire initFz (wireInst "7" [connectorElem "0" [], connectorElem "1" []]) =
        some { initFz with
               points := dictSet initFz.points (some "7") inner,
               connects := add_connects (some "7")
                 (XmlElem.mk "schematicView" []
                   [geomElem, XmlElem.mk "connectors" []
                     [connectorElem "0" [], connectorElem "1" []] none] none)
                 initFz.connects } ∧
      inner.length = 2 ∧
      dictFind? inner (some "0") = some ⟨"7.0", 0, 0⟩ ∧
      dictFind? inner (some "1") = some ⟨"7.1", 10, 0⟩ := by
  obtain ⟨inner, h1, _h2, h3, h4⟩ :=
    (c3_wire_points (fun _ _ => none) ⟨[]⟩ "0" initFz
      (wireInst "7" [connectorElem "0" [], connectorElem "1" []])
      (XmlElem.mk "schematicView" []
        [geomElem, XmlElem.mk "connectors" []
          [connectorElem "0" [], connectorElem "1" []] none] none)
      geomElem "7" 0 0 10 0 ["0", "1"]
      rfl rfl rfl rfl (by decide) rfl (by decide) (by decide) (by decide)
      (by decide)).2.2.2
  refine ⟨inner, h1, by simpa using h3, ?_, ?_⟩
  · exact h4 0 (by decide)
  · exact h4 1 (by decide)

/-- C2 counterexample: once a Component for the same `moduleIdRef` is
cached, an instance whose `path` attribute is absent nevertheless gets a
ComponentInstance recorded — the absent path is never consulted. -/
theorem c2_counterexample_cached_component_ignores_missing_path :
    instNoPath.get "path" = none ∧
    (parse_component_instance (fun _ _ => none) ⟨[]⟩ "0" cachedSt instNoPath).map
        (fun st => dictFind? st.component_instances (some "9"))
      = some (some ⟨some "T", some "mod1", 0, [⟨1, -2, 0⟩]⟩) := by
  exact ⟨rfl, by decide⟩

/-- C2 (amended): for a non-wire instance whose `moduleIdRef` is not yet
cached and whose `path` is absent, empty, or resolves (also through the
library lookup) to no existing file, no ComponentInstance is recorded,
the state is unchanged, and parsing continues with the remaining
instances. -/
theorem c2_unresolvable_component_skipped
    (lookup : String → String → Option String) (fs : FS) (fv : String)
    (st : FzState) (inst : XmlElem)
    (hnw : ¬ inst.get "moduleIdRef" = some "WireModuleID")
    (hmiss : dictFind? st.components (inst.get "moduleIdRef") = none)
    (hpath : inst.get "path" = none ∨ inst.get "path" = some "" ∨
      (∃ p, inst.get "path" = some p ∧ ¬ p = "" ∧ fs.pathExists p = false ∧
        (lookup p fv = none ∨
          ∃ q, lookup p fv = some q ∧ (q = "" ∨ fs.pathExists q = false)))) :
    ensure_component lookup fs fv st inst = some (none, st) ∧
    parse_instance lookup fs fv st inst = some st ∧
    (∀ rest : List XmlElem,
      parse_instances lookup fs fv st (inst :: rest) =
        parse_instances lookup fs fv st rest) := by
  have hens : ensure_component lookup fs fv st inst = some (none, st) := by
    rcases hpath with h | h | ⟨p, hp, hpne, hpex, hlk⟩
    · simp only [ensure_component, hmiss, h]
    · simp [ensure_component, hmiss, h]
    · simp only [ensure_component, hmiss, hp]
      rw [if_neg hpne]
      simp only [hpex, Bool.false_eq_true, if_false]
      rcases hlk with h | ⟨q, hq, hqbad⟩
      · simp only [h]
      · simp only [hq]
        rcases hqbad with h' | h'
        · rw [if_pos (Or.inl h')]
        · rw [if_pos (Or.inr (by simp [h']))]
  have hpi : parse_instance lookup fs fv st inst = some st := by
    unfold parse_instance
    rw [if_neg hnw]
    cases hv : inst.findPath ["views", "schematicView"] with
    | none => simp [parse_component_instance, hv]
    | some view =>
        by_cases hl : view.get "layer" = some "breadboardbreadboard"
        · simp [parse_component_instance, hv, hl]
        · simp only [parse_component_instance, hv]
          rw [if_neg hl]
          simp only [hens]
  refine ⟨hens, hpi, fun rest => ?_⟩
  unfold parse_instances
  rw [List.foldlM_cons, hpi]
  simp only [Option.bind_eq_bind', Option.some_bind]

theorem c2_witness :
    parse_instances (fun _ _ => none) ⟨[]⟩ "0" initFz
        [XmlElem.mk "instance"
           [("moduleIdRef", "modX"), ("modelIndex", "3"), ("path", "missing.fzp")]
           [XmlElem.mk "views" [] [schColView] none] none,
         instNoPath]
      = parse_instances (fun _ _ => none) ⟨[]⟩ "0" initFz [instNoPath] :=
  ((c2_unresolvable_component_skipped (fun _ _ => none) ⟨[]⟩ "0" initFz
      (XmlElem.mk "instance"
        [("moduleIdRef", "modX"), ("modelIndex", "3"), ("path", "missing.fzp")]
        [XmlElem.mk "views" [] [schColView] none] none)
      (by decide) rfl
      (Or.inr (Or.inr ⟨"missing.fzp", rfl, by decide, rfl, Or.inl rfl⟩))).2.2
    [instNoPath])

/-- C9 counterexample: a non-wire instance with a schematicView, not
breadboard-only, whose Component resolves (here from the cache), but
with no `title` element: `inst.find('title').text` raises an
`AttributeError`, so parsing fails — the missing title is fatal even
though the top-level document was perfectly readable. -/
theorem c9_counterexample_missing_title_fatal :
    instNoTitle.findPath ["views", "schematicView"] = some schColView ∧
    instNoTitle.findPath ["title"] = none ∧
    ensure_component (fun _ _ => none) ⟨[]⟩ "0" cachedSt instNoTitle
      = some (some cpt0, cachedSt) ∧
    parse_component_instance (fun _ _ => none) ⟨[]⟩ "0" cachedSt instNoTitle
      = none := by
  exact ⟨rfl, rfl, by decide, by decide⟩

/-- C9 (amended): the `title` element is required, not optional — for a
non-wire instance with a schematicView, not breadboard-only and a
resolvable Component, parsing raises when `title` is absent, and records
the ComponentInstance (titled by the element's text) when it is
present. -/
theorem c9_title_required (lookup : String → String → Option String) (fs : FS)
    (fv : String) (st st1 : FzState) (inst view : XmlElem) (cpt : Component)
    (hview : inst.findPath ["views", "schematicView"] = some view)
    (hlayer : ¬ view.get "layer" = some "breadboardbreadboard")
    (hens : ensure_component lookup fs fv st inst = some (some cpt, st1)) :
    (inst.findPath ["title"] = none →
      parse_component_instance lookup fs fv st inst = none) ∧
    (∀ titleElem geom rot x y,
      inst.findPath ["title"] = some titleElem →
      view.findPath ["geometry"] = some geom →
      decode_rotation (geom.findPath ["transform"]) = some rot →
      get_x geom "x" = some x → get_y geom "y" = some y →
      parse_component_instance lookup fs fv st inst =
        some { st1 with
               component_instances := dictSet st1.component_instances
                 (inst.get "modelIndex")
                 ⟨titleElem.text, inst.get "moduleIdRef", 0, [⟨x, y, rot⟩]⟩,
               connects := add_connects (inst.get "modelIndex") view st1.connects }) := by
  constructor
  · intro ht
    simp only [parse_component_instance, hview]
    rw [if_neg hlayer]
    simp only [hens, ht]
  · intro titleElem geom rot x y ht hg hr hx hy
    simp only [parse_component_instance, hview]
    rw [if_neg hlayer]
    simp only [hens, ht, hg]
    rw [hr]
    simp only [Option.bind_eq_bind', Option.some_bind]
    rw [hx]
    simp only [Option.some_bind]
    rw [hy]
    simp only [Option.some_bind]
    rfl

theorem c9_witness :
    parse_component_instance (fun _ _ => none) ⟨[]⟩ "0" cachedSt instNoPath =
      some { cachedSt with
             component_instances := dictSet cachedSt.component_instances (some "9")
               ⟨some "T", some "mod1", 0, [⟨1, -2, 0⟩]⟩,
             connects := add_connects (some "9") schColView cachedSt.connects } := by
  have h := (c9_title_required (fun _ _ => none) ⟨[]⟩ "0" cachedSt cachedSt
      instNoPath schColView cpt0 rfl (by decide) (by decide)).2
    (XmlElem.mk "title" [] [] (some "T"))
    (XmlElem.mk "geometry" [("x", "1"), ("y", "2")] [] none)
    0 1 (-2) rfl rfl rfl (by decide) (by decide)
  exact h

/-- C10: throughout one session, the component cache maps a
`moduleIdRef` only to a successfully parsed Component.  A cache hit is
returned as-is with the state (and hence the instance's own `path`)
untouched; every other outcome either leaves the state unchanged
(failed resolution caches nothing, so the next instance with the same
`moduleIdRef` re-attempts it) or extends the cache exactly with the
Component that `ComponentParser.parse` just returned. -/
theorem c10_component_cache (lookup : String → String → Option String) (fs : FS)
    (fv : String) (st : FzState) (inst : XmlElem) :
    (∀ cpt, dictFind? st.components (inst.get "moduleIdRef") = some cpt →
      ensure_component lookup fs fv st inst = some (some cpt, st)) ∧
    (∀ r st', ensure_component lookup fs fv st inst = some (r, st') →
      st' = st ∨
      (∃ cpt p, r = some cpt ∧
        ComponentParser.parse fs (inst.get "moduleIdRef") p = some cpt ∧
        dictFind? st.components (inst.get "moduleIdRef") = none ∧
        st' = { st with
                components := dictSet st.components (inst.get "moduleIdRef") cpt })) := by
  constructor
  · intro cpt hc
    simp only [ensure_component, hc]
  · intro r st' h
    simp only [ensure_component] at h
    split at h
    · simp only [Option.some.injEq, Prod.mk.injEq] at h
      exact Or.inl h.2.symm
    · rename_i hm
      split at h
      · simp only [Option.some.injEq, Prod.mk.injEq] at h
        exact Or.inl h.2.symm
      · split at h
        · simp only [Option.some.injEq, Prod.mk.injEq] at h
          exact Or.inl h.2.symm
        · split at h
          · simp only [Option.some.injEq, Prod.mk.injEq] at h
            exact Or.inl h.2.symm
          · rename_i p hp2
            split at h
            · simp only [Option.some.injEq, Prod.mk.injEq] at h
              exact Or.inl h.2.symm
            · split at h
              · cases h
              · rename_i cpt hcp
                simp only [Option.some.injEq, Prod.mk.injEq] at h
                exact Or.inr ⟨cpt, p, h.1.symm, hcp, hm, h.2.symm⟩

theorem c10_witness :
    ensure_component (fun _ _ => none) ⟨[]⟩ "0" cachedSt instNoPath =
      some (some cpt0, cachedSt) :=
  (c10_component_cache (fun _ _ => none) ⟨[]⟩ "0" cachedSt instNoPath).1
    cpt0 (by decide)

/-- C8 counterexample: for a 1×1 rectangle at origin `(0, -1)` whose id
is in the terminal map, the pin is placed at `(0 + 1/2, -1 + 1/2)`
computed with python2 *integer floor division*, i.e. at `(0, -1)` — not
at the rectangle's centre `(1/2, -1/2)`. -/
theorem c8_counterexample_pin_not_center :
    get_pin [("e1", some "c1")] (Shape.rectangle 0 (-1) 1 1)
        (XmlElem.mk "rect" [("id", "e1")] [] none) 0
      = some (⟨toString 0, (0, -1), (0, -1)⟩, 1) ∧
    claim_rect_center 0 (-1) 1 1 = (1 / 2, -1 / 2) ∧
    ¬ (((0 : ℤ) : ℚ), ((-1 : ℤ) : ℚ)) = claim_rect_center 0 (-1) 1 1 := by
  refine ⟨by decide, ?_, ?_⟩
  · unfold claim_rect_center
    norm_num
  · unfold claim_rect_center
    simp only [Prod.mk.injEq, not_and]
    intro h
    norm_num at h

/-- `get_pin` always numbers the produced pin with the current
`next_pin_number` and returns its successor. -/
lemma get_pin_spec (terminals : List (String × Option String)) (shape : Shape)
    (element : XmlElem) (npn : ℕ) (pr : Pin × ℕ)
    (h : get_pin terminals shape element npn = some pr) :
    pr.1.pin_number = toString npn ∧ pr.2 = npn + 1 := by
  unfold get_pin at h
  split at h
  · cases h
  · split at h
    · split at h
      · cases h
        exact ⟨rfl, rfl⟩
      · cases h
        exact ⟨rfl, rfl⟩
      · cases h
    · cases h

lemma shape_step_inv (terminals : List (String × Option String))
    (element : XmlElem) (s : CPState) (shape : Shape) (h : PinInv s) :
    PinInv (shape_step terminals element s shape) := by
  obtain ⟨h1, h2⟩ := h
  unfold PinInv
  cases hg : get_pin terminals shape element s.next_pin_number with
  | none =>
      simp only [shape_step, hg]
      exact ⟨h1, h2⟩
  | some pr =>
      obtain ⟨pin, npn⟩ := pr
      obtain ⟨hn, hsucc⟩ := get_pin_spec _ _ _ _ _ hg
      simp only at hn hsucc
      simp only [shape_step, hg]
      refine ⟨?_, ?_⟩
      · simp [hsucc, h1]
      · simp [List.range_succ, h2, hn, h1]

lemma foldl_shape_step_inv (terminals : List (String × Option String))
    (element : XmlElem) :
    ∀ (shapes : List Shape) (s : CPState), PinInv s →
      PinInv (shapes.foldl (shape_step terminals element) s) := by
  intro shapes
  induction shapes with
  | nil => intro s h; exact h
  | cons sh rest ih =>
      intro s h
      rw [List.foldl_cons]
      exact ih _ (shape_step_inv terminals element s sh h)

lemma process_svg_element_inv (terminals : List (String × Option String))
    (s s' : CPState) (element : XmlElem)
    (h : process_svg_element terminals s element = some s') (hs : PinInv s) :
    PinInv s' := by
  unfold process_svg_element at h
  rcases Option.map_eq_some'.mp h with ⟨shapes, _, rfl⟩
  exact foldl_shape_step_inv terminals element shapes s hs

lemma process_svg_elements_inv (terminals : List (String × Option String)) :
    ∀ (elems : List XmlElem) (s s' : CPState),
      process_svg_elements terminals s elems = some s' → PinInv s → PinInv s' := by
  intro elems
  induction elems with
  | nil =>
      intro s s' h hs
      simp only [process_svg_elements, List.foldlM_nil] at h
      cases h
      exact hs
  | cons e rest ih =>
      intro s s' h hs
      simp only [process_svg_elements, List.foldlM_cons] at h
      cases hm : process_svg_element terminals s e with
      | none =>
          rw [hm] at h
          cases h
      | some s1 =>
          rw [hm] at h
          simp only [Option.bind_eq_bind', Option.some_bind] at h
          exact ih s1 s' h (process_svg_element_inv terminals s s1 e hm hs)

/-- C8 (amended): within one Component a Pin is created for a shape iff
the source element's id is a key of the terminal map and the shape is a
rectangle or a circle; the circle pin sits at the circle's centre, the
rectangle pin at `(x + ⌊width/2⌋, y + ⌊height/2⌋)` (python2 integer
floor division — the exact centre only for even width and height);
pin numbers are assigned `0, 1, 2, …` in the order the owning shapes are
encountered, dense and never restarting mid-component. -/
theorem c8_pin_rules (terminals : List (String × Option String)) (shape : Shape)
    (element : XmlElem) (npn : ℕ) :
    ((get_pin terminals shape element npn).isSome ↔
      (∃ eid, element.get "id" = some eid ∧ (dictFind? terminals eid).isSome ∧
        ((∃ x y w h, shape = Shape.rectangle x y w h) ∨
         (∃ x y r, shape = Shape.circle x y r)))) ∧
    (∀ eid x y w h, element.get "id" = some eid →
      (dictFind? terminals eid).isSome → shape = Shape.rectangle x y w h →
      get_pin terminals shape element npn =
        some (⟨toString npn, (x + Int.fdiv w 2, y + Int.fdiv h 2),
               (x + Int.fdiv w 2, y + Int.fdiv h 2)⟩, npn + 1)) ∧
    (∀ eid x y r, element.get "id" = some eid →
      (dictFind? terminals eid).isSome → shape = Shape.circle x y r →
      get_pin terminals shape element npn =
        some (⟨toString npn, (x, y), (x, y)⟩, npn + 1)) ∧
    (∀ elems s', process_svg_elements terminals initCP elems = some s' →
      s'.body.pins.map Pin.pin_number =
        (List.range s'.body.pins.length).map toString) := by
  refine ⟨?_, ?_, ?_, ?_⟩
  · cases hid : element.get "id" with
    | none => simp [get_pin, hid]
    | some eid =>
        by_cases hT : (dictFind? terminals eid).isSome
        · cases shape <;> simp [get_pin, hid, hT]
        · cases shape <;> simp [get_pin, hid, hT]
  · intro eid x y w h hid hT hs
    subst hs
    simp [get_pin, hid, hT]
  · intro eid x y r hid hT hs
    subst hs
    simp [get_pin, hid, hT]
  · intro elems s' h
    exact (process_svg_elements_inv terminals elems initCP s' h ⟨rfl, rfl⟩).2

theorem c8_witness :
    get_pin [("e1", some "c1")] (Shape.rectangle 0 (-2) 2 2) svgRectE1 0
      = some (⟨toString 0, (1, -1), (1, -1)⟩, 1) ∧
    ((⟨⟨[Shape.rectangle 0 (-2) 2 2], [⟨toString 0, (1, -1), (1, -1)⟩]⟩, 1⟩ :
        CPState)).body.pins.map Pin.pin_number
      = (List.range 1).map toString := by
  constructor
  · exact (c8_pin_rules [("e1", some "c1")] (Shape.rectangle 0 (-2) 2 2)
      svgRectE1 0).2.1 "e1" 0 (-2) 2 2 rfl (by decide) rfl
  · exact (c8_pin_rules [("e1", some "c1")] (Shape.rectangle 0 (-2) 2 2)
      svgRectE1 0).2.2.2 [svgRectE1]
      ⟨⟨[Shape.rectangle 0 (-2) 2 2], [⟨toString 0, (1, -1), (1, -1)⟩]⟩, 1⟩
      (by decide)
